import Mathlib

/-!
Shallow embedding of the pylrctool repository (src/pylrctool/lrcevent.py,
src/pylrctool/lrcfile.py, src/pylrctool/regex.py).

Modelling conventions:
- Python strings are lists of characters; the line grammar given by the
  regular expressions in regex.py is embedded as a deterministic
  character-level matcher with the same backtracking behaviour.
- pendulum durations are natural numbers of milliseconds.  Every duration the
  library constructs from input is of the form minutes*60000 + seconds*1000 +
  centiseconds*10, hence non-negative, and two such durations compare equal
  under total_seconds comparison exactly when the millisecond counts agree.
- Python truthiness of a duration (used by "if self.time:", "if
  self.repeat_time:" and "event.time or pendulum.duration()") is: None is
  falsy and the zero duration is falsy.
- Exceptions become an explicit error type threaded through Except.
- The SortedKeyList container is a Lean list kept in ascending key order;
  bisect insertion, deletion by index and the list iterator of its (single)
  internal chunk are modelled positionally, which matches the CPython
  behaviour for lyrics-file sizes.
-/

namespace Pylrctool

/-- Errors raised by the modelled code paths.  The first three mirror
exceptions.py (LRCParseError, LRCUnsupportedType, LCRMissingTime);
valueError models the bare ValueError escaping from the Type enum lookup
cls.Type(tag); attrError models the AttributeError raised when
total_seconds() is taken on a None time inside dump_to_srt. -/
inductive Err
  | parseError
  | unsupportedType
  | missingTime
  | valueError
  | attrError
deriving DecidableEq, Repr

/-- LRCEvent.Type from lrcevent.py (a str-valued Enum). -/
inductive EvType
  | comment
  | title
  | artist
  | album
  | author
  | lyricist
  | length
  | fileAuthor
  | offset
  | creator
  | version
  | timedLyric
deriving DecidableEq, Repr

/-- The str value of each enum member of LRCEvent.Type. -/
def typeValue : EvType → List Char
  | .comment => ['#']
  | .title => ['t', 'i']
  | .artist => ['a', 'r']
  | .album => ['a', 'l']
  | .author => ['a', 'u']
  | .lyricist => ['l', 'r']
  | .length => ['l', 'e', 'n', 'g', 't', 'h']
  | .fileAuthor => ['b', 'y']
  | .offset => ['o', 'f', 'f', 's', 'e', 't']
  | .creator => ['r', 'e']
  | .version => ['v', 'e']
  | .timedLyric => ['l', 'y', 'r', 'i', 'c']

/-- All members of LRCEvent.Type, in declaration order. -/
def allTypes : List EvType :=
  [.comment, .title, .artist, .album, .author, .lyricist, .length,
   .fileAuthor, .offset, .creator, .version, .timedLyric]

/-- Value lookup cls.Type(tag): the member whose value is the tag, if any.
An unknown value raises ValueError in Python (modelled at the call site). -/
def typeOfTag (t : List Char) : Option EvType :=
  allTypes.find? (fun ty => typeValue ty = t)

/-- The LRCEvent dataclass: optional primary time, optional repeat time
(milliseconds), payload text, and kind. -/
structure LRCEvent where
  time : Option Nat := none
  repeat_time : Option Nat := none
  data : List Char := []
  type : EvType := .timedLyric
deriving DecidableEq, Repr

/-- LRCEvent.is_lyric. -/
def isLyric (e : LRCEvent) : Bool := e.type = EvType.timedLyric

/-- Python truthiness of an optional duration: None and the zero duration
are falsy. -/
def durTruthy : Option Nat → Bool
  | none => false
  | some t => t ≠ 0

/-- LRCEvent.__eq__ from lrcevent.py.  The guard "if self.time:" uses
truthiness, so a missing time and a zero time take the same branch; in the
truthy branch the other operand must carry a Duration (of any value) and
time, repeat_time, data and type are all compared. -/
def eqEvent (a b : LRCEvent) : Bool :=
  if durTruthy a.time then
    match b.time with
    | none => false
    | some bt =>
      decide (a.time = some bt) && decide (a.repeat_time = b.repeat_time)
        && decide (a.data = b.data) && decide (a.type = b.type)
  else
    decide (a.data = b.data) && decide (a.type = b.type)

/-- The sort key of the LRCFile container: event.time or the zero duration.
A zero time and a missing time both give key 0. -/
def sortKey (e : LRCEvent) : Nat := e.time.getD 0

/-- Bisect-right insertion used by SortedKeyList.add: insert before the
first element whose key is strictly greater. -/
def insort : List LRCEvent → LRCEvent → List LRCEvent
  | [], v => [v]
  | x :: xs, v => if sortKey v < sortKey x then v :: x :: xs else x :: insort xs v

/-- LRCFile.add: no-op when an equal event (per LRCEvent.__eq__, existing
element on the left) is present, otherwise sorted insertion. -/
def addEvent (l : List LRCEvent) (v : LRCEvent) : List LRCEvent :=
  if l.any (fun ev => eqEvent ev v) then l else insort l v

/-- One pass of LRCFile.merge_lines: iterate positions of the live list
while deleting from it.  pos is the position the list iterator reads next,
i is the running index of the Python code; both index the current
(mutated) list, exactly as in CPython where deleting at index i makes the
iterator's next read skip or shift accordingly.  The fuel argument only
bounds the recursion; merge_lines always supplies enough. -/
def mergeLoop : Nat → List LRCEvent → Nat → Nat → List LRCEvent
  | 0, l, _, _ => l
  | fuel + 1, l, pos, i =>
    if hpos : pos < l.length then
      if (l[pos]).type = EvType.timedLyric then
        if hi : i < l.length then
          if (l[pos]).data = (l[i]).data then
            mergeLoop fuel
              ((l.set pos { l[pos] with repeat_time := (l[i]).time }).eraseIdx i)
              (pos + 1) (i + 1)
          else mergeLoop fuel l (pos + 1) (i + 1)
        else mergeLoop fuel l (pos + 1) (i + 1)
      else mergeLoop fuel l (pos + 1) i
    else l

/-- LRCFile.merge_lines.  The loop makes at most length-many iterations
(pos grows by one each step, the length never grows), so fuel = length is
always sufficient. -/
def mergeLines (l : List LRCEvent) : List LRCEvent := mergeLoop l.length l 0 1

/-- A subtitle cue record (index, content, start, end), milliseconds. -/
structure Cue where
  index : Nat
  content : List Char
  start : Nat
  stop : Nat
deriving DecidableEq, Repr

/-- The loop body of LRCFile.dump_to_srt.  orig and n are the collection
and its length captured before the loop (data_len); index starts at 1.
When the event has a truthy repeat_time, the Python code appends the same
Subtitle object twice and then mutates it (start := repeat end, end := end,
index := index+1), so both list entries end up holding the final field
values; the model appends that final record twice. -/
def srtLoop (orig : List LRCEvent) (n : Nat) :
    List LRCEvent → Nat → Except Err (List Cue)
  | [], _ => .ok []
  | e :: rest, index =>
    if e.type = EvType.timedLyric then
      match e.time with
      | none => .error .attrError
      | some start =>
        let repeatEnd : Option Nat :=
          match e.repeat_time with
          | some r => if r = 0 then none else some r
          | none => none
        let endRes : Except Err Nat :=
          if index + 1 < n then
            match orig[index + 1]? with
            | some nxt =>
              match nxt.time with
              | some t => .ok t
              | none => .error .attrError
            | none => .error .attrError
          else .ok (start + 5000)
        match endRes with
        | .error er => .error er
        | .ok stop =>
          match repeatEnd with
          | some r =>
            match srtLoop orig n rest (index + 2) with
            | .ok cs =>
              .ok (⟨index + 1, e.data, r, stop⟩ :: ⟨index + 1, e.data, r, stop⟩ :: cs)
            | .error er => .error er
          | none =>
            match srtLoop orig n rest (index + 1) with
            | .ok cs => .ok (⟨index, e.data, start, stop⟩ :: cs)
            | .error er => .error er
    else srtLoop orig n rest (index + 1)

/-- LRCFile.dump_to_srt, returning the cue list handed to srt.compose
(the file write itself is out of scope). -/
def dumpToSrt (l : List LRCEvent) : Except Err (List Cue) :=
  srtLoop l l.length l 1

/-- Decimal digit test, as in the regex class \d restricted to ASCII input. -/
def isDigit (c : Char) : Bool := 48 ≤ c.toNat && c.toNat ≤ 57

/-- Numeric value of a decimal digit character (int of a digit). -/
def digitVal (c : Char) : Nat := c.toNat - 48

/-- The decimal digit character for k < 10 (callers only pass k < 10). -/
def digitChar : Nat → Char
  | 0 => '0'
  | 1 => '1'
  | 2 => '2'
  | 3 => '3'
  | 4 => '4'
  | 5 => '5'
  | 6 => '6'
  | 7 => '7'
  | 8 => '8'
  | _ => '9'

/-- Two-digit zero-padded rendering of n < 100 (Python format 02d for
values below 100, and the integer and fractional parts of 05.2f). -/
def two (n : Nat) : List Char := [digitChar (n / 10), digitChar (n % 10)]

/-- Decimal digit expansion helper (fuel-structural; fuel = n + 1 always
suffices since n shrinks by a factor of ten each step). -/
def natDigitsAux : Nat → Nat → List Char
  | 0, _ => []
  | fuel + 1, n =>
    if n < 10 then [digitChar n] else natDigitsAux fuel (n / 10) ++ [digitChar (n % 10)]

/-- Decimal rendering of a natural number, as Python str(int). -/
def natDigits (n : Nat) : List Char := natDigitsAux (n + 1) n

/-- Rendering of the minutes field int(minutes):02 — zero-padded to width
two, full decimal expansion above 99. -/
def minutesChars (n : Nat) : List Char := if n < 100 then two n else natDigits n

/-- Rounding of r milliseconds (r < 60000) to centiseconds, to nearest with
ties to even, modelling the .2f formatting of the seconds value.  (CPython
formats the nearest double to r/1000; for the sub-hour magnitudes involved
this agrees with decimal rounding except possibly on exact .xx5 ties, and
every duration the library builds from input is a whole multiple of 10
milliseconds, where no rounding happens at all.) -/
def roundCsHE (r : Nat) : Nat :=
  if r % 10 < 5 then r / 10
  else if 5 < r % 10 then r / 10 + 1
  else if (r / 10) % 2 = 0 then r / 10 else r / 10 + 1

/-- LRCEvent._convert_time_to_code: minutes:02 then seconds 05.2f, on a
duration of ms milliseconds. -/
def formatTime (ms : Nat) : List Char :=
  minutesChars (ms / 60000) ++ ':' :: two (roundCsHE (ms % 60000) / 100)
    ++ '.' :: two (roundCsHE (ms % 60000) % 100)

/-- Matching of the TIME_TAG regex at the head of a string:
bracket, two digit minutes, colon, two digit seconds, optionally a dot and
one or two digits (greedy), closing bracket.  Returns minutes, seconds,
centiseconds value (int of the fraction group, 0 when absent) and the
remainder of the string. -/
def matchTimeTag (s : List Char) : Option (Nat × Nat × Nat × List Char) :=
  match s with
  | c0 :: c1 :: c2 :: c3 :: c4 :: c5 :: rest =>
    if c0 = '[' ∧ c3 = ':' ∧ isDigit c1 ∧ isDigit c2 ∧ isDigit c4 ∧ isDigit c5 then
      let mins := digitVal c1 * 10 + digitVal c2
      let secs := digitVal c4 * 10 + digitVal c5
      match rest with
      | ']' :: r => some (mins, secs, 0, r)
      | '.' :: a :: b :: r4 =>
        if b = ']' then
          if isDigit a then some (mins, secs, digitVal a, r4) else none
        else
          match r4 with
          | ']' :: r5 =>
            if isDigit a ∧ isDigit b then
              some (mins, secs, digitVal a * 10 + digitVal b, r5)
            else none
          | _ => none
      | _ => none
    else none
  | _ => none

/-- re.findall(TIME_TAG, s): scan left to right, at each position take the
match starting there if any and continue after it, otherwise advance one
character.  Fuel-structural; fuel = length suffices since every step
consumes at least one character. -/
def scanTags : Nat → List Char → List (Nat × Nat × Nat)
  | _, [] => []
  | 0, _ :: _ => []
  | fuel + 1, c :: rest =>
    match matchTimeTag (c :: rest) with
    | some (m, sec, cs, r) => (m, sec, cs) :: scanTags fuel r
    | none => scanTags fuel rest

/-- re.findall(TIME_TAG, s) over the whole string. -/
def findTimeTags (s : List Char) : List (Nat × Nat × Nat) :=
  scanTags s.length s

/-- No position of s starts a TIME_TAG match (so findall finds nothing). -/
def noTags : List Char → Bool
  | [] => true
  | c :: rest => (matchTimeTag (c :: rest)).isNone && noTags rest

/-- The greedy leading run of time tags of TIME_TAG_MULTI, with the
remainder of the line (the lyric group).  Fuel as in scanTags. -/
def leadingTagsAux : Nat → List Char → List (Nat × Nat × Nat) × List Char
  | 0, s => ([], s)
  | fuel + 1, s =>
    match matchTimeTag s with
    | some (m, sec, cs, r) =>
      ((m, sec, cs) :: (leadingTagsAux fuel r).1, (leadingTagsAux fuel r).2)
    | none => ([], s)

/-- The leading time tags and lyric text of a TIMED_LINE match. -/
def leadingTags (s : List Char) : List (Nat × Nat × Nat) × List Char :=
  leadingTagsAux s.length s

/-- The duration in milliseconds built by from_string from one findall
tuple: pendulum.duration(minutes, seconds, centiseconds*10 milliseconds). -/
def tagMs (t : Nat × Nat × Nat) : Nat := t.1 * 60000 + t.2.1 * 1000 + t.2.2 * 10

/-- ASCII whitespace for str.strip (the inputs in scope are ASCII). -/
def isPySpace (c : Char) : Bool :=
  c = ' ' || c = '\t' || c = '\n' || c = '\r' || c = '\x0b' || c = '\x0c'

/-- Python str.strip(): drop leading and trailing whitespace. -/
def trim (s : List Char) : List Char :=
  ((s.dropWhile isPySpace).reverse.dropWhile isPySpace).reverse

/-- Split at the first colon, returning the parts before and after it. -/
def splitAtColon : List Char → Option (List Char × List Char)
  | [] => none
  | c :: r =>
    if c = ':' then some ([], r)
    else (splitAtColon r).map (fun p => (c :: p.1, p.2))

/-- The TAG_NAME alternation of regex.py. -/
def TAGS : List (List Char) :=
  [['t', 'i'], ['a', 'r'], ['a', 'l'], ['a', 'u'], ['l', 'r'],
   ['l', 'e', 'n', 'g', 't', 'h'], ['b', 'y'],
   ['o', 'f', 'f', 's', 'e', 't'], ['r', 'e'],
   ['t', 'o', 'o', 'l'], ['v', 'e']]

/-- Matching of the anchored ID_TAG regex: an opening bracket, a tag from
TAG_NAME, a colon, a value free of closing brackets, and a closing bracket
ending the line.  Since no tag name contains a colon, a successful match is
exactly: the line ends with a closing bracket, its interior has no other
closing bracket, and the part before the first colon of the interior is a
known tag name. -/
def parseIdTag (s : List Char) : Option (List Char × List Char) :=
  match s with
  | '[' :: rest =>
    match rest.getLast? with
    | some lastc =>
      if lastc = ']' then
        if ']' ∈ rest.dropLast then none
        else
          match splitAtColon rest.dropLast with
          | some (t, v) => if t ∈ TAGS then some (t, v) else none
          | none => none
      else none
    | none => none
  | _ => none

/-- LRCEvent.from_string: match the line against LRC_LINE (the ID_TAG,
COMMENT_TAG and TIMED_LINE alternatives are mutually exclusive on any one
line) and build the event as lrcevent.py does.  The offset and length
branches of from_string are dead code because LRC_LINE defines no groups of
those names.  An ID tag whose name has no enum member (the reserved name
tool) raises ValueError out of cls.Type(tag).  A comment line with empty
payload fails the truthiness check of the comment group and falls through
to the final ParseError. -/
def from_string (s : List Char) : Except Err LRCEvent :=
  match parseIdTag s with
  | some (t, v) =>
    match typeOfTag t with
    | some ty => .ok { time := none, repeat_time := none, data := trim v, type := ty }
    | none => .error .valueError
  | none =>
    match s with
    | '#' :: c =>
      if c = [] then .error .parseError
      else .ok { time := none, repeat_time := none, data := trim c, type := .comment }
    | _ =>
      match leadingTags s with
      | ([], _) => .error .parseError
      | (_ :: _, rest) =>
        match findTimeTags s with
        | [] => .error .parseError
        | t0 :: more =>
          .ok { time := some (tagMs t0), repeat_time := more.head?.map tagMs,
                data := trim rest, type := .timedLyric }

/-- LRCEvent.compose: a timed lyric without time raises MissingTime; a
truthy repeat_time yields the two-tag form; every other kind composes as
bracket, type value, colon, data, bracket. -/
def compose (e : LRCEvent) : Except Err (List Char) :=
  if e.type = EvType.timedLyric then
    match e.time with
    | none => .error .missingTime
    | some t =>
      match e.repeat_time with
      | some rt =>
        if rt = 0 then .ok ('[' :: formatTime t ++ ']' :: e.data)
        else .ok ('[' :: formatTime t ++ ']' :: '[' :: formatTime rt ++ ']' :: e.data)
      | none => .ok ('[' :: formatTime t ++ ']' :: e.data)
  else .ok ('[' :: typeValue e.type ++ ':' :: e.data ++ [']'])

/-- Parsing of a bracketed time code exactly as from_string reads one tag:
the TIME_TAG pattern must consume the whole bracketed text, and the result
is the from_string duration arithmetic. -/
def parseTimeCode (s : List Char) : Option Nat :=
  match matchTimeTag ('[' :: s ++ [']']) with
  | some (m, sec, cs, r) => if r = [] then some (tagMs (m, sec, cs)) else none
  | none => none

/-- LRCFile.from_string after splitlines: skip falsy (empty) lines, strip
and classify the others, add each event; the first parse failure aborts. -/
def loadLines (l : List LRCEvent) : List (List Char) → Except Err (List LRCEvent)
  | [] => .ok l
  | line :: rest =>
    if line = [] then loadLines l rest
    else
      match from_string (trim line) with
      | .ok e => loadLines (addEvent l e) rest
      | .error er => .error er

/-- LRCFile.from_file after reading lines: every line (trailing newline
included, removed by strip) is stripped and classified with no blank-line
guard; the first parse failure aborts. -/
def loadLinesFile (l : List LRCEvent) : List (List Char) → Except Err (List LRCEvent)
  | [] => .ok l
  | line :: rest =>
    match from_string (trim line) with
    | .ok e => loadLinesFile (addEvent l e) rest
    | .error er => .error er

/-- The sort invariant of the collection: adjacent events have
non-decreasing sort keys. -/
def SortedKeys (l : List LRCEvent) : Prop :=
  List.Chain' (fun a b => sortKey a ≤ sortKey b) l


deriving instance DecidableEq for Except

/-- C1.  The merge_lines index i only advances past lyric events while the
iterator advances past every event, so in a collection holding a metadata
event followed by two equal-text timed lyrics ([ti:X], [00:01]A, [00:02]A,
built here by three add calls), the first lyric is compared against itself,
its repeat_time is set to its own time and it is deleted; the later lyric
survives unchanged.  The claim instead requires the earlier lyric to
survive with repeat_time 2000 and the later one to be removed. -/
theorem c1_merge_misaligned_with_metadata :
    mergeLines
      (addEvent (addEvent (addEvent [] ⟨none, none, ['X'], .title⟩)
        ⟨some 1000, none, ['A'], .timedLyric⟩)
        ⟨some 2000, none, ['A'], .timedLyric⟩) =
      [⟨none, none, ['X'], .title⟩, ⟨some 2000, none, ['A'], .timedLyric⟩] := by
  decide

/-- C3.  dump_to_srt reads self[index + 1] where index is the 1-based
running counter, i.e. the event two positions after the current one, so
with two timed lyrics at 10 s and 20 s the first cue does not end at the
next event's time 20000 as the claim states but gets the start + 5 s
fallback 15000 (and the guard index + 1 < data_len makes the last two
events both take the fallback). -/
theorem c3_srt_end_skips_next_event :
    dumpToSrt [⟨some 10000, none, ['A'], .timedLyric⟩,
               ⟨some 20000, none, ['B'], .timedLyric⟩] =
      .ok [⟨1, ['A'], 10000, 15000⟩, ⟨2, ['B'], 20000, 25000⟩] := by
  decide

/-- C4.  For an event with a repeat_time ([00:01][00:02]A), dump_to_srt
appends the same Subtitle object twice and then mutates it, so instead of
the two cues (1, A, 1000, 2000) and (2, A, 2000, 6000) of the claim, the
produced list holds the final record twice: both cues span from the
repeat_time to the computed end and share one index. -/
theorem c4_srt_repeat_cues_aliased :
    dumpToSrt [⟨some 1000, some 2000, ['A'], .timedLyric⟩] =
      .ok [⟨2, ['A'], 2000, 6000⟩, ⟨2, ['A'], 2000, 6000⟩] := by
  decide

/-- C7.  On the line [tool:x] the tag name tool is admitted by TAG_NAME and
the ID_TAG branch of from_string is taken, but cls.Type("tool") finds no
enum member and raises a bare ValueError — not the LRCUnsupportedType of
the claim (and also not LRCParseError). -/
theorem c7_tool_tag_gives_value_error :
    from_string ('[' :: 't' :: 'o' :: 'o' :: 'l' :: ':' :: 'x' :: ']' :: []) =
        .error .valueError ∧
      Err.valueError ≠ Err.unsupportedType ∧ Err.valueError ≠ Err.parseError := by
  decide

/-- C5 counterexample.  An event whose time is present but equal to the
zero duration is compared by the falsy branch of __eq__: it equals an
event with no time at all whenever data and type agree, although the claim
says an event with time set is never equal to one with time unset. -/
theorem c5_zero_time_equals_unset :
    eqEvent ⟨some 0, none, ['x'], .timedLyric⟩ ⟨none, none, ['x'], .timedLyric⟩ = true ∧
      (⟨some 0, none, ['x'], .timedLyric⟩ : LRCEvent).time ≠ none ∧
      (⟨none, none, ['x'], .timedLyric⟩ : LRCEvent).time = none := by
  decide

/-- C5 amended.  The __eq__ contract with "set" read as Python truthiness
(set and nonzero): if a.time is truthy, a equals b iff b.time is set (to
any duration) and the two events agree on time, repeat_time, data and
type; if a.time is unset or zero, a equals b iff they agree on data and
type, all time fields ignored. -/
theorem c5_eq_contract (a b : LRCEvent) :
    (durTruthy a.time = true →
      (eqEvent a b = true ↔
        b.time ≠ none ∧ a.time = b.time ∧ a.repeat_time = b.repeat_time ∧
          a.data = b.data ∧ a.type = b.type)) ∧
    (durTruthy a.time = false →
      (eqEvent a b = true ↔ a.data = b.data ∧ a.type = b.type)) := by
  constructor
  · intro h
    cases hb : b.time with
    | none => simp [eqEvent, h, hb]
    | some bt => simp [eqEvent, h, hb, and_assoc]
  · intro h
    simp [eqEvent, h]

/-- Witness for C5 amended at a concrete truthy pair. -/
theorem c5_eq_contract_witness :
    durTruthy (⟨some 5000, none, ['x'], .timedLyric⟩ : LRCEvent).time = true ∧
      eqEvent ⟨some 5000, none, ['x'], .timedLyric⟩
        ⟨some 5000, none, ['x'], .timedLyric⟩ = true :=
  ⟨by decide,
    ((c5_eq_contract ⟨some 5000, none, ['x'], .timedLyric⟩
        ⟨some 5000, none, ['x'], .timedLyric⟩).1 (by decide)).mpr (by decide)⟩

/-- C10.  When a.time is present but zero, the truthiness guard of __eq__
fails and equality is decided exactly as for an absent time: data and type
agree, every time field of both events ignored. -/
theorem c10_zero_time_eq_ignores_times (a b : LRCEvent) (h : a.time = some 0) :
    eqEvent a b = true ↔ a.data = b.data ∧ a.type = b.type := by
  simp [eqEvent, durTruthy, h]

/-- Witness for C10 at a concrete pair with differing time fields. -/
theorem c10_zero_time_eq_witness :
    (⟨some 0, some 5000, ['x'], .timedLyric⟩ : LRCEvent).time = some 0 ∧
      eqEvent ⟨some 0, some 5000, ['x'], .timedLyric⟩
        ⟨some 7000, none, ['x'], .timedLyric⟩ = true :=
  ⟨rfl, (c10_zero_time_eq_ignores_times _ _ rfl).mpr ⟨rfl, rfl⟩⟩

theorem isDigit_digitChar (k : Nat) (h : k < 10) : isDigit (digitChar k) = true := by
  interval_cases k <;> decide

theorem digitVal_digitChar (k : Nat) (h : k < 10) : digitVal (digitChar k) = k := by
  interval_cases k <;> decide

theorem digitChar_ne_rb (k : Nat) (h : k < 10) : digitChar k ≠ ']' := by
  interval_cases k <;> decide

theorem digitChar_ne_colon (k : Nat) (h : k < 10) : digitChar k ≠ ':' := by
  interval_cases k <;> decide

/-- The formatted code of a whole-centisecond duration below 100 minutes,
placed in brackets, matches TIME_TAG and decodes to its three fields. -/
theorem matchTimeTag_format (c : Nat) (hc : c < 600000) (tail : List Char) :
    matchTimeTag ('[' :: formatTime (10 * c) ++ ']' :: tail) =
      some (c / 6000, c % 6000 / 100, c % 100, tail) := by
  have h60 : 10 * c / 60000 = c / 6000 := by omega
  have hr : 10 * c % 60000 = 10 * (c % 6000) := by omega
  have hmin : c / 6000 < 100 := by omega
  have hcs : roundCsHE (10 * (c % 6000)) = c % 6000 := by
    unfold roundCsHE
    have h0 : 10 * (c % 6000) % 10 = 0 := by omega
    rw [h0, if_pos (by norm_num)]
    omega
  rw [formatTime, h60, hr, hcs, minutesChars, if_pos hmin]
  simp only [two, List.cons_append, List.nil_append, List.append_assoc]
  rw [matchTimeTag]
  rw [if_pos]
  · rw [digitVal_digitChar _ (by omega), digitVal_digitChar _ (by omega),
        digitVal_digitChar _ (by omega), digitVal_digitChar _ (by omega)]
    simp only []
    rw [if_neg (digitChar_ne_rb _ (by omega))]
    rw [if_pos ⟨isDigit_digitChar _ (by omega), isDigit_digitChar _ (by omega)⟩]
    rw [digitVal_digitChar _ (by omega), digitVal_digitChar _ (by omega)]
    congr 1
    refine Prod.ext ?_ (Prod.ext ?_ (Prod.ext ?_ rfl)) <;> simp <;> omega
  · exact ⟨rfl, rfl, isDigit_digitChar _ (by omega), isDigit_digitChar _ (by omega),
      isDigit_digitChar _ (by omega), isDigit_digitChar _ (by omega)⟩

/-- C6 counterexample.  The duration of 100 minutes (6000000 ms, hundredths
representable) formats as 100:00.00, whose minutes field no longer matches
the two-digit TIME_TAG pattern, so parsing the formatted text fails
entirely instead of recovering the duration to 10 ms. -/
theorem c6_hundred_minutes_fails :
    parseTimeCode (formatTime 6000000) = none := by
  decide

/-- C6 amended.  For every duration of c hundredths of a second with
minutes below 100 (c < 600000), parsing the formatted time code recovers
the duration exactly (a fortiori to 10 ms). -/
theorem c6_format_parse_roundtrip (c : Nat) (hc : c < 600000) :
    parseTimeCode (formatTime (10 * c)) = some (10 * c) := by
  unfold parseTimeCode
  rw [matchTimeTag_format c hc []]
  simp [tagMs]
  omega

/-- Witness for C6 amended at 1.23 seconds. -/
theorem c6_format_parse_roundtrip_witness :
    123 < 600000 ∧ parseTimeCode (formatTime (10 * 123)) = some (10 * 123) :=
  ⟨by norm_num, c6_format_parse_roundtrip 123 (by norm_num)⟩

/-- C8 counterexample.  On the same three lines ([00:01.00]a, blank,
[00:02.00]b) from_string skips the blank line and loads both events, but
from_file strips the blank line to the empty string, classifies it, and
raises LRCParseError instead of skipping it silently. -/
theorem c8_from_file_blank_line_raises :
    loadLinesFile []
        [['[', '0', '0', ':', '0', '1', '.', '0', '0', ']', 'a'], [],
         ['[', '0', '0', ':', '0', '2', '.', '0', '0', ']', 'b']] =
        .error .parseError ∧
      loadLines []
        [['[', '0', '0', ':', '0', '1', '.', '0', '0', ']', 'a'], [],
         ['[', '0', '0', ':', '0', '2', '.', '0', '0', ']', 'b']] =
        .ok [⟨some 1000, none, ['a'], .timedLyric⟩,
             ⟨some 2000, none, ['b'], .timedLyric⟩] := by
  decide


/-- C8 amended. -/
theorem c8_blank_line_handling :
    (∀ (l : List LRCEvent) (rest : List (List Char)),
        loadLines l ([] :: rest) = loadLines l rest) ∧
    (∀ (l : List LRCEvent) (rest : List (List Char)),
        loadLinesFile l ([] :: rest) = .error .parseError) := by
  constructor
  · intro l rest
    simp [loadLines]
  · intro l rest
    have h : from_string (trim ([] : List Char)) = .error .parseError := by decide
    simp [loadLinesFile, h]

theorem mem_insort (l : List LRCEvent) (v x : LRCEvent) :
    x ∈ insort l v ↔ x = v ∨ x ∈ l := by
  induction l with
  | nil => simp [insort]
  | cons a as ih =>
    simp only [insort]
    split
    · simp [List.mem_cons]
    · simp [List.mem_cons, ih]
      tauto

theorem pairwise_insort (l : List LRCEvent) (v : LRCEvent)
    (h : List.Pairwise (fun a b => sortKey a ≤ sortKey b) l) :
    List.Pairwise (fun a b => sortKey a ≤ sortKey b) (insort l v) := by
  induction l with
  | nil => simp [insort]
  | cons a as ih =>
    rw [List.pairwise_cons] at h
    simp only [insort]
    split
    · rename_i hlt
      refine List.pairwise_cons.mpr ⟨?_, List.pairwise_cons.mpr h⟩
      intro y hy
      rcases List.mem_cons.mp hy with rfl | hy2
      · omega
      · exact le_trans (le_of_lt hlt) (h.1 y hy2)
    · rename_i hge
      refine List.pairwise_cons.mpr ⟨?_, ih h.2⟩
      intro y hy
      rcases (mem_insort as v y).mp hy with rfl | hy2
      · omega
      · exact h.1 y hy2

theorem pairwise_addEvent (l : List LRCEvent) (v : LRCEvent)
    (h : List.Pairwise (fun a b => sortKey a ≤ sortKey b) l) :
    List.Pairwise (fun a b => sortKey a ≤ sortKey b) (addEvent l v) := by
  unfold addEvent
  split
  · exact h
  · exact pairwise_insort l v h

theorem pairwise_set_same_key (l : List LRCEvent) (pos : Nat) (e : LRCEvent)
    (hk : ∀ hp : pos < l.length, sortKey e = sortKey l[pos])
    (h : List.Pairwise (fun a b => sortKey a ≤ sortKey b) l) :
    List.Pairwise (fun a b => sortKey a ≤ sortKey b) (l.set pos e) := by
  rw [List.pairwise_iff_getElem] at h ⊢
  intro i j hi hj hij
  simp only [List.length_set] at hi hj
  rw [List.getElem_set, List.getElem_set]
  by_cases hpi : pos = i
  · subst hpi
    by_cases hpj : pos = j
    · omega
    · rw [if_pos rfl, if_neg hpj]
      rw [hk hi]
      exact h pos j hi hj hij
  · by_cases hpj : pos = j
    · subst hpj
      rw [if_neg hpi, if_pos rfl]
      rw [hk hj]
      exact h i pos hi hj hij
    · simp only [if_neg hpi, if_neg hpj]
      exact h i j hi hj hij

theorem pairwise_mergeLoop (fuel : Nat) : ∀ (l : List LRCEvent) (pos i : Nat),
    List.Pairwise (fun a b => sortKey a ≤ sortKey b) l →
    List.Pairwise (fun a b => sortKey a ≤ sortKey b) (mergeLoop fuel l pos i) := by
  induction fuel with
  | zero => intro l pos i h; simpa [mergeLoop] using h
  | succ f ih =>
    intro l pos i h
    rw [mergeLoop]
    split
    · split
      · split
        · split
          · refine ih _ _ _ (List.Pairwise.sublist (List.eraseIdx_sublist _ _) ?_)
            refine pairwise_set_same_key _ _ _ (fun hp => rfl) h
          · exact ih _ _ _ h
        · exact ih _ _ _ h
      · exact ih _ _ _ h
    · exact h

theorem pairwise_loadLines : ∀ (lines : List (List Char)) (l r : List LRCEvent),
    List.Pairwise (fun a b => sortKey a ≤ sortKey b) l →
    loadLines l lines = .ok r →
    List.Pairwise (fun a b => sortKey a ≤ sortKey b) r := by
  intro lines
  induction lines with
  | nil =>
    intro l r h he
    simp only [loadLines, Except.ok.injEq] at he
    exact he ▸ h
  | cons line rest ih =>
    intro l r h he
    rw [loadLines] at he
    split at he
    · exact ih _ _ h he
    · split at he
      · exact ih _ _ (pairwise_addEvent _ _ h) he
      · exact absurd he (by simp)

theorem pairwise_loadLinesFile : ∀ (lines : List (List Char)) (l r : List LRCEvent),
    List.Pairwise (fun a b => sortKey a ≤ sortKey b) l →
    loadLinesFile l lines = .ok r →
    List.Pairwise (fun a b => sortKey a ≤ sortKey b) r := by
  intro lines
  induction lines with
  | nil =>
    intro l r h he
    simp only [loadLinesFile, Except.ok.injEq] at he
    exact he ▸ h
  | cons line rest ih =>
    intro l r h he
    rw [loadLinesFile] at he
    split at he
    · exact ih _ _ (pairwise_addEvent _ _ h) he
    · exact absurd he (by simp)

theorem sortedKeys_iff_pairwise (l : List LRCEvent) :
    SortedKeys l ↔ List.Pairwise (fun a b => sortKey a ≤ sortKey b) l := by
  haveI : IsTrans LRCEvent (fun a b => sortKey a ≤ sortKey b) :=
    ⟨fun _ _ _ => Nat.le_trans⟩
  exact List.chain'_iff_pairwise

/-- C9. -/
theorem c9_sort_invariant :
    (∀ (l : List LRCEvent) (e : LRCEvent), SortedKeys l → SortedKeys (addEvent l e)) ∧
    (∀ (l : List LRCEvent) (lines : List (List Char)) (r : List LRCEvent),
        SortedKeys l → loadLines l lines = .ok r → SortedKeys r) ∧
    (∀ (l : List LRCEvent) (lines : List (List Char)) (r : List LRCEvent),
        SortedKeys l → loadLinesFile l lines = .ok r → SortedKeys r) ∧
    (∀ l : List LRCEvent, SortedKeys l → SortedKeys (mergeLines l)) := by
  refine ⟨?_, ?_, ?_, ?_⟩
  · intro l e h
    exact (sortedKeys_iff_pairwise _).mpr
      (pairwise_addEvent l e ((sortedKeys_iff_pairwise _).mp h))
  · intro l lines r h he
    exact (sortedKeys_iff_pairwise _).mpr
      (pairwise_loadLines lines l r ((sortedKeys_iff_pairwise _).mp h) he)
  · intro l lines r h he
    exact (sortedKeys_iff_pairwise _).mpr
      (pairwise_loadLinesFile lines l r ((sortedKeys_iff_pairwise _).mp h) he)
  · intro l h
    exact (sortedKeys_iff_pairwise _).mpr
      (pairwise_mergeLoop l.length l 0 1 ((sortedKeys_iff_pairwise _).mp h))

/-- Witness for C9. -/
theorem c9_sort_invariant_witness :
    SortedKeys [(⟨some 1000, none, ['A'], .timedLyric⟩ : LRCEvent)] ∧
    SortedKeys (addEvent [⟨some 1000, none, ['A'], .timedLyric⟩]
      ⟨some 500, none, ['B'], .timedLyric⟩) ∧
    SortedKeys (mergeLines [(⟨some 1000, none, ['A'], .timedLyric⟩ : LRCEvent),
      ⟨some 2000, none, ['A'], .timedLyric⟩]) ∧
    (loadLines [] [['#', 'x']] = .ok [⟨none, none, ['x'], .comment⟩] ∧
      SortedKeys [(⟨none, none, ['x'], .comment⟩ : LRCEvent)]) ∧
    (loadLinesFile [] [['#', 'x']] = .ok [⟨none, none, ['x'], .comment⟩] ∧
      SortedKeys [(⟨none, none, ['x'], .comment⟩ : LRCEvent)]) :=
  ⟨by simp [SortedKeys],
   c9_sort_invariant.1 _ _ (by simp [SortedKeys]),
   c9_sort_invariant.2.2.2 _ (by simp [SortedKeys, sortKey]),
   ⟨by decide, c9_sort_invariant.2.1 [] [['#', 'x']] _ (by simp [SortedKeys]) (by decide)⟩,
   ⟨by decide, c9_sort_invariant.2.2.1 [] [['#', 'x']] _ (by simp [SortedKeys]) (by decide)⟩⟩




theorem matchTimeTag_nil : matchTimeTag [] = none := rfl

theorem noTags_match_none (s : List Char) (h : noTags s = true) : matchTimeTag s = none := by
  cases s with
  | nil => rfl
  | cons c r =>
    rw [noTags] at h
    simp only [Bool.and_eq_true, Option.isNone_iff_eq_none] at h
    exact h.1

theorem noTags_tail (c : Char) (r : List Char) (h : noTags (c :: r) = true) : noTags r = true := by
  rw [noTags] at h
  simp only [Bool.and_eq_true] at h
  exact h.2

theorem scanTags_noTags (f : Nat) : ∀ s : List Char, noTags s = true → scanTags f s = [] := by
  induction f with
  | zero =>
    intro s _
    cases s <;> rfl
  | succ g ih =>
    intro s h
    cases s with
    | nil => rfl
    | cons c r =>
      rw [scanTags, noTags_match_none _ h]
      exact ih r (noTags_tail c r h)

theorem scanTags_cons_match (f : Nat) (s : List Char) (m sec cs : Nat) (r : List Char)
    (h : matchTimeTag s = some (m, sec, cs, r)) :
    scanTags (f + 1) s = (m, sec, cs) :: scanTags f r := by
  cases s with
  | nil => exact absurd h (by simp [matchTimeTag])
  | cons c rest => rw [scanTags, h]

theorem leadingTagsAux_none (f : Nat) (s : List Char) (h : matchTimeTag s = none) :
    leadingTagsAux f s = ([], s) := by
  cases f with
  | zero => rfl
  | succ g => rw [leadingTagsAux, h]

theorem leadingTagsAux_cons_match (f : Nat) (s : List Char) (m sec cs : Nat) (r : List Char)
    (h : matchTimeTag s = some (m, sec, cs, r)) :
    leadingTagsAux (f + 1) s =
      ((m, sec, cs) :: (leadingTagsAux f r).1, (leadingTagsAux f r).2) := by
  rw [leadingTagsAux, h]

theorem splitAtColon_no_colon (t v : List Char) (h : ':' ∉ t) :
    splitAtColon (t ++ ':' :: v) = some (t, v) := by
  induction t with
  | nil => simp [splitAtColon]
  | cons c cs ih =>
    simp only [List.mem_cons, not_or] at h
    have hc : ¬c = ':' := fun hh => h.1 hh.symm
    rw [List.cons_append, splitAtColon, if_neg hc, ih h.2]
    rfl

theorem tags_chars : ∀ t ∈ TAGS, ':' ∉ t ∧ ']' ∉ t := by decide

theorem typeOfTag_value (t : List Char) (ty : EvType) (h : typeOfTag t = some ty) :
    typeValue ty = t := by
  have := List.find?_some h
  simpa using this

theorem parseIdTag_meta (t v : List Char) (ht : t ∈ TAGS) (hv : ']' ∉ v) :
    parseIdTag ('[' :: t ++ ':' :: v ++ [']']) = some (t, v) := by
  have hnm : ']' ∉ t ++ ':' :: v := by
    intro hmem
    rcases List.mem_append.mp hmem with h1 | h2
    · exact (tags_chars t ht).2 h1
    · rcases List.mem_cons.mp h2 with h3 | h4
      · exact absurd h3 (by decide)
      · exact hv h4
  have h1 : ('[' :: t ++ ':' :: v ++ [']']) = '[' :: ((t ++ ':' :: v) ++ [']']) := by
    simp
  rw [h1, parseIdTag]
  simp only [List.getLast?_concat, List.dropLast_concat, if_true]
  rw [if_neg hnm, splitAtColon_no_colon t v (tags_chars t ht).1]
  simp [ht]



theorem formatTime_small (c : Nat) (hc : c < 600000) :
    formatTime (10 * c) =
      two (c / 6000) ++ ':' :: (two (c % 6000 / 100) ++ '.' :: two (c % 100)) := by
  have h60 : 10 * c / 60000 = c / 6000 := by omega
  have hr : 10 * c % 60000 = 10 * (c % 6000) := by omega
  have hcs : roundCsHE (10 * (c % 6000)) = c % 6000 := by
    unfold roundCsHE
    have h0 : 10 * (c % 6000) % 10 = 0 := by omega
    rw [h0, if_pos (by norm_num)]
    omega
  have e2 : c % 6000 % 100 = c % 100 := by omega
  rw [formatTime, h60, hr, hcs, minutesChars, if_pos (by omega : c / 6000 < 100), e2]
  simp

theorem digitChar_big (m : Nat) (h : 10 ≤ m) : digitChar m = '9' := by
  obtain ⟨n, rfl⟩ := Nat.exists_eq_add_of_le h
  rw [Nat.add_comm]
  rfl

theorem mem_two (x : Char) (n : Nat) (h : x ∈ two n) : ∃ k, k < 10 ∧ x = digitChar k := by
  simp only [two, List.mem_cons, List.not_mem_nil, or_false] at h
  rcases h with h | h
  · subst h
    by_cases hb : n / 10 < 10
    · exact ⟨n / 10, hb, rfl⟩
    · exact ⟨9, by omega, digitChar_big _ (by omega)⟩
  · exact ⟨n % 10, by omega, h⟩

theorem rb_not_mem_two (n : Nat) : ']' ∉ two n := by
  intro h
  obtain ⟨k, hk, he⟩ := mem_two _ _ h
  exact digitChar_ne_rb k hk he.symm

theorem colon_not_mem_two (n : Nat) : ':' ∉ two n := by
  intro h
  obtain ⟨k, hk, he⟩ := mem_two _ _ h
  exact digitChar_ne_colon k hk he.symm

theorem rb_not_mem_formatTime (c : Nat) (hc : c < 600000) : ']' ∉ formatTime (10 * c) := by
  rw [formatTime_small c hc]
  intro h
  rcases List.mem_append.mp h with h1 | h2
  · exact rb_not_mem_two _ h1
  · rcases List.mem_cons.mp h2 with h3 | h4
    · exact absurd h3 (by decide)
    · rcases List.mem_append.mp h4 with h5 | h6
      · exact rb_not_mem_two _ h5
      · rcases List.mem_cons.mp h6 with h7 | h8
        · exact absurd h7 (by decide)
        · exact rb_not_mem_two _ h8

theorem digit_pair_not_tag (a b : Nat) (ha : a < 10) (hb : b < 10) :
    [digitChar a, digitChar b] ∉ TAGS := by
  interval_cases a <;> interval_cases b <;> decide

theorem parseIdTag_fmt_none (c : Nat) (hc : c < 600000) (tail : List Char) :
    parseIdTag ('[' :: (formatTime (10 * c) ++ ']' :: tail)) = none := by
  rw [parseIdTag]
  cases tail with
  | nil =>
    simp only [List.getLast?_concat, List.dropLast_concat, if_true]
    rw [if_neg (rb_not_mem_formatTime c hc), formatTime_small c hc,
      splitAtColon_no_colon _ _ (colon_not_mem_two _)]
    simp only [two]
    rw [if_neg (digit_pair_not_tag _ _ (by omega) (by omega))]
  | cons y ys =>
    have hne : (']' :: y :: ys : List Char) ≠ [] := by simp
    rw [List.getLast?_append_of_ne_nil _ hne, List.getLast?_cons_cons]
    cases hL : (y :: ys : List Char).getLast? with
    | none => simp at hL
    | some L =>
      simp only [hL]
      by_cases hLrb : L = ']'
      · rw [if_pos hLrb, if_pos]
        rw [List.dropLast_append_of_ne_nil _ hne, List.dropLast_cons₂]
        exact List.mem_append_right _ (List.mem_cons_self _ _)
      · rw [if_neg hLrb]



theorem matchTimeTag_format2 (c : Nat) (hc : c < 600000) (tail : List Char) :
    matchTimeTag ('[' :: (formatTime (10 * c) ++ ']' :: tail)) =
      some (c / 6000, c % 6000 / 100, c % 100, tail) := by
  have h := matchTimeTag_format c hc tail
  rwa [List.cons_append] at h

theorem scanTags_pos_match (f : Nat) (hf : 0 < f) (s : List Char) (m sec cs : Nat)
    (r : List Char) (h : matchTimeTag s = some (m, sec, cs, r)) :
    scanTags f s = (m, sec, cs) :: scanTags (f - 1) r := by
  cases f with
  | zero => omega
  | succ g => simpa using scanTags_cons_match g s m sec cs r h

theorem leadingTagsAux_pos_match (f : Nat) (hf : 0 < f) (s : List Char) (m sec cs : Nat)
    (r : List Char) (h : matchTimeTag s = some (m, sec, cs, r)) :
    leadingTagsAux f s = ((m, sec, cs) :: (leadingTagsAux (f - 1) r).1,
      (leadingTagsAux (f - 1) r).2) := by
  cases f with
  | zero => omega
  | succ g => simpa using leadingTagsAux_cons_match g s m sec cs r h

theorem leadingTags_lyric1 (c : Nat) (hc : c < 600000) (text : List Char)
    (hnt : noTags text = true) :
    leadingTags ('[' :: (formatTime (10 * c) ++ ']' :: text)) =
      ([(c / 6000, c % 6000 / 100, c % 100)], text) := by
  rw [leadingTags,
    leadingTagsAux_pos_match _ (by simp) _ _ _ _ _ (matchTimeTag_format2 c hc text),
    leadingTagsAux_none _ _ (noTags_match_none _ hnt)]

theorem findTimeTags_lyric1 (c : Nat) (hc : c < 600000) (text : List Char)
    (hnt : noTags text = true) :
    findTimeTags ('[' :: (formatTime (10 * c) ++ ']' :: text)) =
      [(c / 6000, c % 6000 / 100, c % 100)] := by
  rw [findTimeTags,
    scanTags_pos_match _ (by simp) _ _ _ _ _ (matchTimeTag_format2 c hc text),
    scanTags_noTags _ _ hnt]

theorem leadingTags_lyric2 (c1 c2 : Nat) (hc1 : c1 < 600000) (hc2 : c2 < 600000)
    (text : List Char) (hnt : noTags text = true) :
    leadingTags ('[' :: (formatTime (10 * c1) ++ ']' ::
        ('[' :: (formatTime (10 * c2) ++ ']' :: text)))) =
      ([(c1 / 6000, c1 % 6000 / 100, c1 % 100),
        (c2 / 6000, c2 % 6000 / 100, c2 % 100)], text) := by
  rw [leadingTags,
    leadingTagsAux_pos_match _ (by simp) _ _ _ _ _ (matchTimeTag_format2 c1 hc1 _),
    leadingTagsAux_pos_match _ (by simp [List.length_append]) _ _ _ _ _
      (matchTimeTag_format2 c2 hc2 text),
    leadingTagsAux_none _ _ (noTags_match_none _ hnt)]

theorem findTimeTags_lyric2 (c1 c2 : Nat) (hc1 : c1 < 600000) (hc2 : c2 < 600000)
    (text : List Char) (hnt : noTags text = true) :
    findTimeTags ('[' :: (formatTime (10 * c1) ++ ']' ::
        ('[' :: (formatTime (10 * c2) ++ ']' :: text)))) =
      [(c1 / 6000, c1 % 6000 / 100, c1 % 100),
       (c2 / 6000, c2 % 6000 / 100, c2 % 100)] := by
  rw [findTimeTags,
    scanTags_pos_match _ (by simp) _ _ _ _ _ (matchTimeTag_format2 c1 hc1 _),
    scanTags_pos_match _ (by simp [List.length_append]) _ _ _ _ _
      (matchTimeTag_format2 c2 hc2 text),
    scanTags_noTags _ _ hnt]

theorem tagMs_fields (c : Nat) : tagMs (c / 6000, c % 6000 / 100, c % 100) = 10 * c := by
  simp only [tagMs]
  omega

theorem from_string_lyric1 (c : Nat) (hc : c < 600000) (text : List Char)
    (hnt : noTags text = true) :
    from_string ('[' :: (formatTime (10 * c) ++ ']' :: text)) =
      .ok { time := some (10 * c), repeat_time := none, data := trim text,
            type := .timedLyric } := by
  rw [from_string, parseIdTag_fmt_none c hc text]
  simp only [leadingTags_lyric1 c hc text hnt, findTimeTags_lyric1 c hc text hnt,
    tagMs_fields, List.head?, Option.map]
  intro c1 h
  simp at h

theorem from_string_lyric2 (c1 c2 : Nat) (hc1 : c1 < 600000) (hc2 : c2 < 600000)
    (text : List Char) (hnt : noTags text = true) :
    from_string ('[' :: (formatTime (10 * c1) ++ ']' ::
        ('[' :: (formatTime (10 * c2) ++ ']' :: text)))) =
      .ok { time := some (10 * c1), repeat_time := some (10 * c2), data := trim text,
            type := .timedLyric } := by
  rw [from_string, parseIdTag_fmt_none c1 hc1 _]
  simp only [leadingTags_lyric2 c1 c2 hc1 hc2 text hnt,
    findTimeTags_lyric2 c1 c2 hc1 hc2 text hnt, tagMs_fields, List.head?, Option.map]
  intro c h
  simp at h

theorem compose_lyric1 (t : Nat) (text : List Char) :
    compose { time := some t, repeat_time := none, data := text, type := .timedLyric } =
      .ok ('[' :: (formatTime t ++ ']' :: text)) := by
  simp [compose]

theorem compose_lyric2 (t rt : Nat) (hrt : rt ≠ 0) (text : List Char) :
    compose { time := some t, repeat_time := some rt, data := text, type := .timedLyric } =
      .ok ('[' :: (formatTime t ++ ']' :: ('[' :: (formatTime rt ++ ']' :: text)))) := by
  simp [compose, hrt]

theorem typeOfTag_not_lyric (t : List Char) (ht : t ∈ TAGS) (ty : EvType)
    (h : typeOfTag t = some ty) : ty ≠ .timedLyric := by
  intro he
  subst he
  have hv := typeOfTag_value t _ h
  rw [← hv] at ht
  exact absurd ht (by decide)

theorem compose_meta (ty : EvType) (hne : ty ≠ .timedLyric) (d : List Char) :
    compose { time := none, repeat_time := none, data := d, type := ty } =
      .ok ('[' :: typeValue ty ++ ':' :: d ++ [']']) := by
  simp [compose, hne]



theorem from_string_comment (c : List Char) (hc : c ≠ []) :
    from_string ('#' :: c) =
      .ok { time := none, repeat_time := none, data := trim c, type := .comment } := by
  have hpid : parseIdTag ('#' :: c) = none := rfl
  rw [from_string, hpid]
  simp [hc]

theorem from_string_meta (t v : List Char) (ht : t ∈ TAGS) (ty : EvType)
    (hty : typeOfTag t = some ty) (hv : ']' ∉ v) :
    from_string ('[' :: t ++ ':' :: v ++ [']']) =
      .ok { time := none, repeat_time := none, data := trim v, type := ty } := by
  rw [from_string, parseIdTag_meta t v ht hv]
  simp [hty]
  intro c1 h
  simp at h

/-- C2 amended.  Round-trip of the classifier and compose, with the
conditions the code actually guarantees: a metadata line reproduces itself
with the payload trimmed; a nonempty comment line is accepted but
re-composes as the bracketed form with a hash kind tag and trimmed payload,
not as the original hash line; a timed-lyric line round-trips exactly when
its one or two time tags are in the canonical form emitted by the
formatter (two-digit minutes, seconds below sixty, two-digit centiseconds),
a second tag is nonzero, and the text carries no further time-tag substring
and no surrounding whitespace. -/
theorem c2_roundtrip :
    (∀ (t v : List Char) (ty : EvType), t ∈ TAGS → typeOfTag t = some ty → ']' ∉ v →
      from_string ('[' :: t ++ ':' :: v ++ [']']) =
          .ok { time := none, repeat_time := none, data := trim v, type := ty } ∧
        compose { time := none, repeat_time := none, data := trim v, type := ty } =
          .ok ('[' :: t ++ ':' :: trim v ++ [']'])) ∧
    (∀ c : List Char, c ≠ [] →
      from_string ('#' :: c) =
          .ok { time := none, repeat_time := none, data := trim c, type := .comment } ∧
        compose { time := none, repeat_time := none, data := trim c, type := .comment } =
          .ok ('[' :: '#' :: ':' :: trim c ++ [']'])) ∧
    (∀ (c : Nat) (text : List Char), c < 600000 → noTags text = true → trim text = text →
      from_string ('[' :: (formatTime (10 * c) ++ ']' :: text)) =
          .ok { time := some (10 * c), repeat_time := none, data := text,
                type := .timedLyric } ∧
        compose { time := some (10 * c), repeat_time := none, data := text,
                  type := .timedLyric } =
          .ok ('[' :: (formatTime (10 * c) ++ ']' :: text))) ∧
    (∀ (c1 c2 : Nat) (text : List Char), c1 < 600000 → c2 < 600000 → c2 ≠ 0 →
        noTags text = true → trim text = text →
      from_string ('[' :: (formatTime (10 * c1) ++ ']' ::
          ('[' :: (formatTime (10 * c2) ++ ']' :: text)))) =
          .ok { time := some (10 * c1), repeat_time := some (10 * c2), data := text,
                type := .timedLyric } ∧
        compose { time := some (10 * c1), repeat_time := some (10 * c2), data := text,
                  type := .timedLyric } =
          .ok ('[' :: (formatTime (10 * c1) ++ ']' ::
            ('[' :: (formatTime (10 * c2) ++ ']' :: text))))) := by
  refine ⟨?_, ?_, ?_, ?_⟩
  · intro t v ty ht hty hv
    refine ⟨from_string_meta t v ht ty hty hv, ?_⟩
    have hnl := typeOfTag_not_lyric t ht ty hty
    have hval := typeOfTag_value t ty hty
    rw [compose_meta ty hnl (trim v), hval]
  · intro c hc
    refine ⟨from_string_comment c hc, ?_⟩
    have h := compose_meta .comment (by decide) (trim c)
    simpa using h
  · intro c text hc hnt htr
    refine ⟨?_, ?_⟩
    · rw [from_string_lyric1 c hc text hnt, htr]
    · exact compose_lyric1 (10 * c) text
  · intro c1 c2 text hc1 hc2 hne hnt htr
    refine ⟨?_, ?_⟩
    · rw [from_string_lyric2 c1 c2 hc1 hc2 text hnt, htr]
    · exact compose_lyric2 (10 * c1) (10 * c2) (by omega) text



/-- C2 counterexample.  The classifier accepts the comment line with text
hi and trimming changes nothing, yet compose yields the bracketed kind:text
form, not the original line, so compose after classify is not the identity
modulo payload trimming. -/
theorem c2_comment_breaks_roundtrip :
    from_string ('#' :: 'h' :: 'i' :: []) =
        .ok { time := none, repeat_time := none, data := ['h', 'i'], type := .comment } ∧
      compose { time := none, repeat_time := none, data := ['h', 'i'], type := .comment } =
        .ok ('[' :: '#' :: ':' :: 'h' :: 'i' :: ']' :: []) ∧
      ('[' :: '#' :: ':' :: 'h' :: 'i' :: ']' :: [] : List Char) ≠ '#' :: 'h' :: 'i' :: [] := by
  decide

/-- Witness for C2 amended at the metadata line with tag ti and value x. -/
theorem c2_roundtrip_witness :
    (['t', 'i'] ∈ TAGS) ∧ typeOfTag ['t', 'i'] = some .title ∧ (']' ∉ ['x']) ∧
      from_string ('[' :: ['t', 'i'] ++ ':' :: ['x'] ++ [']']) =
        .ok { time := none, repeat_time := none, data := trim ['x'], type := .title } ∧
      compose { time := none, repeat_time := none, data := trim ['x'], type := .title } =
        .ok ('[' :: ['t', 'i'] ++ ':' :: trim ['x'] ++ [']']) :=
  ⟨by decide, by decide, by decide,
    (c2_roundtrip.1 ['t', 'i'] ['x'] .title (by decide) (by decide) (by decide)).1,
    (c2_roundtrip.1 ['t', 'i'] ['x'] .title (by decide) (by decide) (by decide)).2⟩

end Pylrctool
